import Mathlib

/-!
Verification of the rare-event analytics core of the Safety Telemetry
Platform.  The statistical models under `src/models/` are embedded
shallowly: DataFrames become lists of rows, numpy float arrays become
lists of rationals (`ℚ`), and raised exceptions become `Except` error
values.  Each claimed property of the specification is then settled
against these embeddings.
-/

namespace SafetyTelemetry

/-- A labeled feature row of the resampling input table: an opaque
feature vector together with the binary rare-event label
(`has_rare_event`; Python value `1` is embedded as `true`). -/
structure LRow where
  features : List ℚ
  label : Bool
deriving DecidableEq

/-- Errors the importance-sampling routines can raise.
`modelNotFitted` embeds `raise ValueError("Must fit reweighting model
first")`; `unknownMethod` embeds `raise ValueError(f"Unknown method")`. -/
inductive ISError where
  | modelNotFitted : ISError
  | unknownMethod : String → ISError
deriving DecidableEq

/-- The `ImportanceSampling` object state: the configured population
rare-event rate and the optional fitted auxiliary reweighting
classifier.  The classifier is embedded as the function taking a
feature vector to the predicted class-1 probability
(`predict_proba(X)[:, 1]`). -/
structure ImportanceSampling where
  rare_event_rate : ℚ
  reweighting_model : Option (List ℚ → ℚ)

/-- The `'uniform'` branch of `compute_importance_weights`:
`np.ones(len(df))`. -/
def uniformW (df : List LRow) : List ℚ :=
  List.replicate df.length 1

/-- The `'stratified'` branch of `compute_importance_weights`
(src/models/importance_sampling.py lines 68-91): defaults the target
rate to `0.1`, computes the observed rare rate, falls back to uniform
weights when it is zero, otherwise assigns
`target_rate / current_rate` to rare rows and
`(1 - target_rate) / (1 - current_rate)` to common rows and
renormalizes so the weights sum to `len(df)`. -/
def stratifiedW (df : List LRow) (target_rate : Option ℚ) : List ℚ :=
  let t := target_rate.getD (1/10)
  let rare_count : ℚ := df.countP (·.label)
  let total_count := df.length
  let current_rate : ℚ := if 0 < total_count then rare_count / total_count else 0
  if current_rate = 0 then
    List.replicate total_count 1
  else
    let rare_weight := t / current_rate
    let normal_weight := (1 - t) / (1 - current_rate)
    let pre := df.map (fun r => if r.label then rare_weight else normal_weight)
    pre.map (fun w => w / pre.sum * total_count)

/-- The `'importance'` branch of `compute_importance_weights`
(lines 93-108): raises when no auxiliary classifier has been fitted,
otherwise divides each predicted probability by the population
rare-event rate and renormalizes to sum to `len(df)`. -/
def importanceW (self : ImportanceSampling) (df : List LRow) :
    Except ISError (List ℚ) :=
  match self.reweighting_model with
  | none => .error .modelNotFitted
  | some f =>
    let probs := df.map (fun r => f r.features)
    let pre := probs.map (fun p => p / self.rare_event_rate)
    .ok (pre.map (fun w => w / pre.sum * df.length))

/-- `ImportanceSampling.compute_importance_weights`
(src/models/importance_sampling.py lines 48-128).  The `'adaptive'`
branch recomputes the stratified weights at target rate `0.1` and,
when a classifier is fitted, blends them `0.5/0.5` elementwise with
the importance weights. -/
def compute_importance_weights (self : ImportanceSampling) (df : List LRow)
    (method : String) (target_rate : Option ℚ) : Except ISError (List ℚ) :=
  if method = "uniform" then
    .ok (uniformW df)
  else if method = "stratified" then
    .ok (stratifiedW df target_rate)
  else if method = "importance" then
    importanceW self df
  else if method = "adaptive" then
    let stratified_weights := stratifiedW df (some (1/10))
    match self.reweighting_model with
    | some _ =>
      (importanceW self df).map (fun importance_weights =>
        List.zipWith (fun a b => 1/2 * a + 1/2 * b)
          stratified_weights importance_weights)
    | none => .ok stratified_weights
  else
    .error (.unknownMethod method)

/-- `ImportanceSampling._estimate_mttd` helper: the index of the first
position where both the true label and the prediction equal `1`
(`np.where((y_true == 1) & (y_pred == 1))[0]`, first element). -/
def firstTPIdx : List ℕ → List ℕ → Option ℕ
  | a :: as, b :: bs =>
    if a = 1 ∧ b = 1 then some 0 else (firstTPIdx as bs).map (· + 1)
  | _, _ => none

/-- `ImportanceSampling._estimate_mttd`
(src/models/importance_sampling.py lines 287-306): 24 hours per row
from the first true positive, `float('inf')` (here `⊤`) when no true
positive exists. -/
def estimate_mttd (y_true y_pred : List ℕ) : WithTop ℚ :=
  match firstTPIdx y_true y_pred with
  | some i => ((24 * i : ℚ) : WithTop ℚ)
  | none => ⊤

/-- Arithmetic mean of a numpy array (`np.mean`); lists embed the
arrays, so the mean is the sum divided by the length. -/
def npMean (xs : List ℚ) : ℚ := xs.sum / xs.length

/-- `np.quantile` with its default linear interpolation: sort the
values, locate the fractional position `q * (n - 1)`, and interpolate
between the two surrounding order statistics. -/
def npQuantile (xs : List ℚ) (q : ℚ) : ℚ :=
  if xs = [] then 0
  else
    let s := xs.insertionSort (· ≤ ·)
    let n := xs.length
    let pos := q * ((n : ℚ) - 1)
    let i := (⌊pos⌋).toNat
    let g := pos - (i : ℚ)
    s.getD i 0 + g * (s.getD (min (i + 1) (n - 1)) 0 - s.getD i 0)

namespace SurvivalModel

/-- One raw row of the survival input DataFrame, restricted to the
three columns `prepare_data` reads; `none` embeds a missing (NaN)
value.  Vehicle identifiers are embedded as naturals. -/
structure SRow where
  time : Option ℚ
  event : Option ℤ
  vehicle : Option ℕ

/-- `df[[time_col, event_col, vehicle_col]].dropna()`: the rows whose
three relevant fields are all present, in order. -/
def cleanRows (df : List SRow) : List (ℚ × ℤ × ℕ) :=
  df.filterMap (fun r =>
    match r.time, r.event, r.vehicle with
    | some t, some e, some v => some (t, e, v)
    | _, _, _ => none)

/-- `Series.unique()`: the distinct values in order of first
appearance. -/
def uniqueFirst : List ℕ → List ℕ
  | [] => []
  | a :: l => a :: uniqueFirst (l.filter (fun x => x ≠ a))
termination_by l => l.length
decreasing_by
  simp only [List.length_cons]
  exact Nat.lt_succ_of_le (List.length_filter_le _ _)

/-- The dictionary returned by `SurvivalModel.prepare_data`. -/
structure SurvivalPrepared where
  time : List ℚ
  event : List ℤ
  vehicle_idx : List ℕ
  n_vehicles : ℕ
  vehicle_ids : List ℕ

/-- `SurvivalModel.prepare_data` (src/models/survival_model.py lines
53-86): drop rows with a missing time, event or vehicle value, map
each distinct vehicle id (in order of first appearance) to a dense
zero-based index, and return the prepared arrays. -/
def prepare_data (df : List SRow) : SurvivalPrepared :=
  let clean := cleanRows df
  let vids := uniqueFirst (clean.map (fun r => r.2.2))
  { time := clean.map (fun r => r.1)
    event := clean.map (fun r => r.2.1)
    vehicle_idx := clean.map (fun r => vids.indexOf r.2.2)
    n_vehicles := vids.length
    vehicle_ids := vids }

/-- The per-draw hazard evaluation inside
`SurvivalModel.predict_hazard_rate` (lines 219-225): the sample matrix
starts at zero and an entry is overwritten with
`(alpha / lam) * ((t / lam) ** (alpha - 1))` only when `t > 0`.  The
real-valued power `x ** y` cannot be expressed inside `ℚ`, so it is
abstracted as the parameter `pw`; for `t ≤ 0` the source never
evaluates it. -/
def hazardSamplesAt (alphas lams : List ℚ) (pw : ℚ → ℚ → ℚ) (t : ℚ) :
    List ℚ :=
  (alphas.zip lams).map
    (fun p => if 0 < t then p.1 / p.2 * pw (t / p.2) (p.1 - 1) else 0)

/-- The dictionary returned by `SurvivalModel.predict_hazard_rate`. -/
structure HazardPrediction where
  time_points : List ℚ
  mean_hazard_rate : List ℚ
  hazard_rate_lower_ci : List ℚ
  hazard_rate_upper_ci : List ℚ

/-- `SurvivalModel.predict_hazard_rate` (src/models/survival_model.py
lines 186-237) given the flattened posterior draws `alphas`/`lams`:
per requested time point, the mean and the two credible-interval
quantiles of the per-draw hazard samples. -/
def predict_hazard_rate (alphas lams : List ℚ) (pw : ℚ → ℚ → ℚ)
    (time_points : List ℚ) (qlo qhi : ℚ) : HazardPrediction :=
  { time_points := time_points
    mean_hazard_rate :=
      time_points.map (fun t => npMean (hazardSamplesAt alphas lams pw t))
    hazard_rate_lower_ci :=
      time_points.map (fun t => npQuantile (hazardSamplesAt alphas lams pw t) qlo)
    hazard_rate_upper_ci :=
      time_points.map (fun t => npQuantile (hazardSamplesAt alphas lams pw t) qhi) }

end SurvivalModel

namespace ChangepointModel

/-- One raw row of the change-point input table, restricted to the
columns `prepare_data` reads, with the time column already numeric
(the datetime branch only converts dates to day numbers first). -/
structure CPRow where
  vehicle : ℕ
  time : ℚ
  events : ℤ
  exposure : ℚ

/-- The distinct values of a column in ascending order: the effect of
`groupby(...)` (which sorts group keys) on the key column. -/
def sortedDistinct {α : Type} [DecidableEq α] [LinearOrder α]
    (l : List α) : List α :=
  l.dedup.insertionSort (· ≤ ·)

/-- The distinct vehicles of the table in groupby key order. -/
def vehicleSet (df : List CPRow) : List ℕ :=
  sortedDistinct (df.map (·.vehicle))

/-- The distinct time values of one vehicle's rows, ascending: the
index of that vehicle's aggregated time series. -/
def timesOf (df : List CPRow) (v : ℕ) : List ℚ :=
  sortedDistinct ((df.filter (fun r => r.vehicle == v)).map (·.time))

/-- One prepared time series (`time`/`events`/`exposure` arrays). -/
structure CPSeries where
  time : List ℚ
  events : List ℤ
  exposure : List ℚ
deriving DecidableEq

/-- The aggregated series of one vehicle: for each distinct time, the
summed event count and summed exposure
(`groupby([vehicle_col, time_col]).agg('sum')` restricted to `v`). -/
def seriesFor (df : List CPRow) (v : ℕ) : CPSeries :=
  let ts := timesOf df v
  { time := ts
    events := ts.map (fun t =>
      ((df.filter (fun r => r.vehicle == v && r.time == t)).map (·.events)).sum)
    exposure := ts.map (fun t =>
      ((df.filter (fun r => r.vehicle == v && r.time == t)).map (·.exposure)).sum) }

/-- The grouped return value of `ChangepointModel.prepare_data`. -/
structure CPGroupedPrepared where
  time_series : List CPSeries
  vehicle_ids : List ℕ
deriving DecidableEq

/-- A raised pandas exception: `KeyError(column)` from indexing a
DataFrame with a column name it does not have. -/
inductive PrepError where
  | keyError : String → PrepError
deriving DecidableEq

/-- The grouped branch of `ChangepointModel.prepare_data`
(src/models/changepoint_model.py lines 87-114), parametrized by the
caller's `time_col` name.  `groupby([vehicle_col, time_col]).agg(...)`
keeps only the two group keys and the aggregated event/exposure
columns, so the `time_numeric` column added to `df_sorted` is absent
from `grouped`; the loop therefore raises `KeyError('time_numeric')`
at line 103 for the first vehicle with at least 10 points
(`if len(vehicle_data) >= 10`) — unless the caller happened to pass
`time_col='time_numeric'` itself, the one column name for which the
lookup succeeds (the event/exposure columns have their own fixed
names).  Vehicles with fewer than 10 points are skipped without any
error, so when no vehicle qualifies the dict with empty lists is
returned. -/
def prepare_data_grouped (df : List CPRow) (time_col : String) :
    Except PrepError CPGroupedPrepared :=
  let kept := (vehicleSet df).filter (fun v => 10 ≤ (timesOf df v).length)
  if kept = [] then
    .ok { time_series := [], vehicle_ids := [] }
  else if time_col = "time_numeric" then
    .ok { time_series := kept.map (seriesFor df), vehicle_ids := kept }
  else
    .error (.keyError "time_numeric")

/-- The aggregate branch of `ChangepointModel.prepare_data` (lines
115-128), parametrized by the caller's `time_col` name.  The frame
`grouped = df_sorted.groupby(time_col).agg(...)` again lacks the
`time_numeric` column, so `grouped['time_numeric']` at line 123 raises
`KeyError('time_numeric')` unconditionally — whatever the series
length, even on an empty frame — unless `time_col='time_numeric'`
was passed, in which case the single aggregate series (summed per
distinct time value, no minimum-length check) is returned. -/
def prepare_data_aggregate (df : List CPRow) (time_col : String) :
    Except PrepError CPSeries :=
  if time_col = "time_numeric" then
    let ts := sortedDistinct (df.map (·.time))
    .ok { time := ts
          events := ts.map (fun t =>
            ((df.filter (fun r => r.time == t)).map (·.events)).sum)
          exposure := ts.map (fun t =>
            ((df.filter (fun r => r.time == t)).map (·.exposure)).sum) }
  else
    .error (.keyError "time_numeric")

/-- The detection fields of the dictionary returned by
`ChangepointModel.detect_changepoint` that concern the detection
decision; the point estimates (posterior mode, hazard-ratio summary,
MTTD) also returned there are not needed by any claim and are not
modelled. -/
structure DetectionResult where
  changepoint_detected : Bool
  changepoint_probability : ℚ

/-- The default `threshold_probability` argument of
`ChangepointModel.detect_changepoint`. -/
def defaultThresholdProbability : ℚ := 1/2

/-- The detection decision of `ChangepointModel.detect_changepoint`
(src/models/changepoint_model.py lines 268-296):
`changepoint_prob = np.mean(tau_samples > len(time) * 0.2)` and
`changepoint_detected = changepoint_prob > threshold_probability`,
given the flattened posterior draws of `tau` and the fitted series'
time array. -/
def detect_changepoint (tau_samples : List ℚ) (time : List ℚ)
    (threshold_probability : ℚ) : DetectionResult :=
  let changepoint_prob : ℚ :=
    (tau_samples.countP
        (fun τ => decide ((time.length : ℚ) * (1/5) < τ)) : ℚ) /
      tau_samples.length
  { changepoint_detected := decide (threshold_probability < changepoint_prob)
    changepoint_probability := changepoint_prob }

end ChangepointModel

/-- Decidable equality of embedded call results, for evaluating the
fallible operations at concrete inputs. -/
instance {ε α : Type} [DecidableEq ε] [DecidableEq α] :
    DecidableEq (Except ε α) := fun a b =>
  match a, b with
  | .ok x, .ok y => decidable_of_iff (x = y) (by simp)
  | .error x, .error y => decidable_of_iff (x = y) (by simp)
  | .ok _, .error _ => isFalse (by simp)
  | .error _, .ok _ => isFalse (by simp)

/-! ### Helper lemmas about weight normalization -/

/-- Summing the renormalized weights `w / S * n` over a list. -/
lemma sum_map_div_mul (l : List ℚ) (S c : ℚ) :
    (l.map (fun w => w / S * c)).sum = l.sum / S * c := by
  induction l with
  | nil => simp
  | cons a l ih => simp [ih, add_div, add_mul]

/-- Renormalizing a list of positive weights of length `n > 0` yields
positive weights of length `n` summing to `n`. -/
lemma normalize_sum_pos (pre : List ℚ) (hne : pre ≠ [])
    (hpos : ∀ x ∈ pre, 0 < x) :
    (pre.map (fun w => w / pre.sum * pre.length)).length = pre.length ∧
    (pre.map (fun w => w / pre.sum * pre.length)).sum = pre.length ∧
    ∀ x ∈ pre.map (fun w => w / pre.sum * pre.length), 0 < x := by
  have hS : 0 < pre.sum := List.sum_pos pre hpos hne
  have hn : 0 < (pre.length : ℚ) := by
    have := List.length_pos.mpr hne
    exact_mod_cast this
  refine ⟨by simp, ?_, ?_⟩
  · rw [sum_map_div_mul, div_self (ne_of_gt hS), one_mul]
  · intro x hx
    rcases List.mem_map.mp hx with ⟨w, hw, rfl⟩
    exact mul_pos (div_pos (hpos w hw) hS) hn

/-- Membership in a `0.5/0.5` blend of two positive lists. -/
lemma mem_zipWith_blend_pos (l₁ l₂ : List ℚ)
    (h₁ : ∀ x ∈ l₁, 0 < x) (h₂ : ∀ x ∈ l₂, 0 < x) :
    ∀ y ∈ List.zipWith (fun a b => 1/2 * a + 1/2 * b) l₁ l₂, 0 < y := by
  induction l₁ generalizing l₂ with
  | nil => simp
  | cons a l ih =>
    cases l₂ with
    | nil => simp
    | cons b l' =>
      intro y hy
      rw [List.zipWith_cons_cons] at hy
      rcases List.mem_cons.mp hy with rfl | hy
      · have ha := h₁ a (by simp)
        have hb := h₂ b (by simp)
        positivity
      · exact ih l' (fun x hx => h₁ x (List.mem_cons_of_mem _ hx))
          (fun x hx => h₂ x (List.mem_cons_of_mem _ hx)) y hy

/-- The sum of a `0.5/0.5` blend of two equal-length lists. -/
lemma sum_zipWith_blend (l₁ l₂ : List ℚ) (h : l₁.length = l₂.length) :
    (List.zipWith (fun a b => 1/2 * a + 1/2 * b) l₁ l₂).sum =
      1/2 * l₁.sum + 1/2 * l₂.sum := by
  induction l₁ generalizing l₂ with
  | nil => cases l₂ with
    | nil => simp
    | cons b l' => simp at h
  | cons a l ih =>
    cases l₂ with
    | nil => simp at h
    | cons b l' =>
      have h' : l.length = l'.length := by simpa using h
      simp only [List.zipWith_cons_cons, List.sum_cons, ih l' h']
      ring

/-! ### Properties of the stratified weights -/

/-- In the non-degenerate branch, every stratified weight is positive
and the weights sum to the row count, for any target rate in `(0, 1)`. -/
lemma stratifiedW_sum_pos (df : List LRow) (tr : Option ℚ)
    (hne : df ≠ []) (h0 : 0 < tr.getD (1/10)) (h1 : tr.getD (1/10) < 1) :
    (stratifiedW df tr).length = df.length ∧
    (stratifiedW df tr).sum = df.length ∧
    ∀ w ∈ stratifiedW df tr, 0 < w := by
  have hlen : 0 < df.length := List.length_pos.mpr hne
  have hnQ : 0 < (df.length : ℚ) := by exact_mod_cast hlen
  set t := tr.getD (1/10) with ht
  unfold stratifiedW
  set rare : ℕ := df.countP (·.label) with hrare
  set current : ℚ :=
    if 0 < df.length then (rare : ℚ) / (df.length : ℚ) else 0 with hcur
  by_cases hc : current = 0
  · simp only [← ht, ← hrare, ← hcur, hc, if_pos rfl]
    refine ⟨by simp, ?_, ?_⟩
    · simp [List.sum_replicate]
    · intro w hw
      rw [List.eq_of_mem_replicate hw]
      norm_num
  · simp only [← ht, ← hrare, ← hcur, if_neg hc]
    have hcur' : current = (rare : ℚ) / (df.length : ℚ) := by
      rw [hcur, if_pos hlen]
    have hrle : rare ≤ df.length := List.countP_le_length _
    have hcur_pos : 0 < current := by
      rcases lt_or_eq_of_le (by positivity : (0:ℚ) ≤ current) with h | h
      · exact h
      · exact absurd h.symm hc
    have hcur_le : current ≤ 1 := by
      rw [hcur']
      rw [div_le_one hnQ]
      exact_mod_cast hrle
    set rw' : ℚ := t / current with hrw
    set nw : ℚ := (1 - t) / (1 - current) with hnw
    set pre : List ℚ := df.map (fun r => if r.label then rw' else nw) with hpre
    have hpre_ne : pre ≠ [] := by
      simp [hpre, hne]
    have hpre_len : pre.length = df.length := by simp [hpre]
    have hpre_pos : ∀ x ∈ pre, 0 < x := by
      intro x hx
      rcases List.mem_map.mp hx with ⟨r, hr, rfl⟩
      by_cases hl : r.label
      · simp only [hl, if_pos]
        exact div_pos h0 hcur_pos
      · simp only [hl, if_neg, Bool.false_eq_true, not_false_iff]
        have hfalse : 0 < df.countP (fun r => decide ¬(r.label = true)) := by
          rw [List.countP_pos_iff]
          exact ⟨r, hr, by simp [hl]⟩
        have hsplit : df.length =
            rare + df.countP (fun r => decide ¬(r.label = true)) := by
          rw [hrare]
          exact List.length_eq_countP_add_countP _ _
        have hlt : rare < df.length := by omega
        have hcur_lt : current < 1 := by
          rw [hcur', div_lt_one hnQ]
          exact_mod_cast hlt
        exact div_pos (by linarith) (by linarith)
    obtain ⟨hl', hs', hp'⟩ := normalize_sum_pos pre hpre_ne hpre_pos
    rw [hpre_len] at hl' hs' hp'
    exact ⟨hl', hs', hp'⟩

/-- The importance weights, when a classifier is fitted with positive
predicted probabilities and the configured rate is positive, are
positive and sum to the row count. -/
lemma importanceW_sum_pos (self : ImportanceSampling) (df : List LRow)
    (f : List ℚ → ℚ) (hf : self.reweighting_model = some f) (hne : df ≠ [])
    (hrate : 0 < self.rare_event_rate)
    (hpos : ∀ r ∈ df, 0 < f r.features) :
    ∃ w, importanceW self df = .ok w ∧ w.length = df.length ∧
      w.sum = df.length ∧ ∀ x ∈ w, 0 < x := by
  simp only [importanceW, hf]
  set pre : List ℚ :=
    (df.map (fun r => f r.features)).map
      (fun p => p / self.rare_event_rate) with hpre
  have hpre_len : pre.length = df.length := by simp [hpre]
  have hpre_ne : pre ≠ [] := by simp [hpre, hne]
  have hpre_pos : ∀ x ∈ pre, 0 < x := by
    intro x hx
    rcases List.mem_map.mp hx with ⟨p, hp, rfl⟩
    rcases List.mem_map.mp hp with ⟨r, hr, rfl⟩
    exact div_pos (hpos r hr) hrate
  obtain ⟨hl, hs, hp⟩ := normalize_sum_pos pre hpre_ne hpre_pos
  rw [hpre_len] at hl hs hp
  exact ⟨_, rfl, hl, hs, hp⟩

/-- **C2** (amended).  For every non-empty labeled DataFrame of `n`
rows, a positive configured rare-event rate, and every method among
`uniform`, `stratified`, `importance` and `adaptive` — with, for
`importance`, a fitted auxiliary classifier, and provided any fitted
classifier predicts a strictly positive probability for every row —
the weight vector returned by `compute_importance_weights` has length
`n`, sums to `n`, and every individual weight is strictly positive.
(The positivity proviso is necessary: see the counterexample.) -/
theorem claim2_weights_length_sum_pos
    (self : ImportanceSampling) (df : List LRow) (method : String)
    (hne : df ≠ []) (hrate : 0 < self.rare_event_rate)
    (hprob : ∀ f, self.reweighting_model = some f → ∀ r ∈ df, 0 < f r.features)
    (hfit : method = "importance" → self.reweighting_model.isSome)
    (hm : method = "uniform" ∨ method = "stratified" ∨
      method = "importance" ∨ method = "adaptive") :
    ∃ w, compute_importance_weights self df method none = .ok w ∧
      w.length = df.length ∧ w.sum = df.length ∧ ∀ x ∈ w, 0 < x := by
  have hlen : 0 < df.length := List.length_pos.mpr hne
  rcases hm with rfl | rfl | rfl | rfl
  · refine ⟨List.replicate df.length 1, by simp [compute_importance_weights, uniformW],
      by simp, ?_, ?_⟩
    · simp [List.sum_replicate]
    · intro x hx
      rw [List.eq_of_mem_replicate hx]
      norm_num
  · obtain ⟨hl, hs, hp⟩ := stratifiedW_sum_pos df none hne
      (by norm_num [Option.getD]) (by norm_num [Option.getD])
    exact ⟨_, by simp [compute_importance_weights], hl, hs, hp⟩
  · obtain ⟨f, hf⟩ := Option.isSome_iff_exists.mp (hfit rfl)
    obtain ⟨w, hw, hl, hs, hp⟩ :=
      importanceW_sum_pos self df f hf hne hrate (hprob f hf)
    exact ⟨w, by simp [compute_importance_weights, hw], hl, hs, hp⟩
  · rcases hmodel : self.reweighting_model with _ | f
    · obtain ⟨hl, hs, hp⟩ := stratifiedW_sum_pos df (some (1/10)) hne
        (by norm_num [Option.getD]) (by norm_num [Option.getD])
      exact ⟨_, by simp [compute_importance_weights, hmodel], hl, hs, hp⟩
    · obtain ⟨hls, hss, hps⟩ := stratifiedW_sum_pos df (some (1/10)) hne
        (by norm_num [Option.getD]) (by norm_num [Option.getD])
      obtain ⟨wi, hwi, hli, hsi, hpi⟩ :=
        importanceW_sum_pos self df f hmodel hne hrate (hprob f hmodel)
      refine ⟨List.zipWith (fun a b => 1/2 * a + 1/2 * b)
          (stratifiedW df (some (1/10))) wi,
        by simp [compute_importance_weights, hmodel, hwi, Except.map], ?_, ?_, ?_⟩
      · rw [List.length_zipWith, hls, hli, min_self]
      · rw [sum_zipWith_blend _ _ (by rw [hls, hli]), hss, hsi]
        ring
      · exact mem_zipWith_blend_pos _ _ hps hpi

/-- Witness for C2 at a concrete input: the uniform weights of a
two-row table. -/
theorem claim2_weights_length_sum_pos_witness :
    ∃ w, compute_importance_weights ⟨1/100, none⟩
        [⟨[1], true⟩, ⟨[2], false⟩] "uniform" none = .ok w ∧
      w.length = 2 ∧ w.sum = 2 ∧ ∀ x ∈ w, 0 < x := by
  have h := claim2_weights_length_sum_pos ⟨1/100, none⟩
    [⟨[1], true⟩, ⟨[2], false⟩] "uniform" (by simp) (by norm_num)
    (by simp) (fun h => absurd h (by decide)) (Or.inl rfl)
  simpa using h

/-- **C2** fails as stated: a fitted auxiliary classifier may predict
probability `0` for a row (here the first row), and the corresponding
importance weight is then `0`, not strictly positive. -/
theorem claim2_counterexample :
    compute_importance_weights ⟨1/100, some (fun fs => fs.headD 0)⟩
        [⟨[0], false⟩, ⟨[1], true⟩] "importance" none = .ok [0, 2] ∧
    ¬ ∀ x ∈ ([0, 2] : List ℚ), 0 < x := by
  constructor
  · simp [compute_importance_weights, importanceW]
  · intro h
    exact absurd (h 0 (by simp)) (lt_irrefl 0)

/-- Splitting the sum of per-row weights by the value of the label. -/
lemma sum_map_ite_label (df : List LRow) (a b : ℚ) :
    (df.map (fun r => if r.label then a else b)).sum =
      (df.countP (·.label) : ℚ) * a +
      (df.countP (fun r => decide ¬(r.label = true)) : ℚ) * b := by
  induction df with
  | nil => simp
  | cons r l ih =>
    by_cases hl : r.label
    · simp only [List.map_cons, List.sum_cons, List.countP_cons, hl, ih]
      push_cast
      simp [hl]
      ring
    · simp only [List.map_cons, List.sum_cons, List.countP_cons, hl, ih]
      push_cast
      simp [hl]
      ring

/-- **C3**.  With `0 < r_observed < 1`, the stratified weights are the
stated pre-normalization weights `r_target / r_observed` (rare rows)
and `(1 - r_target) / (1 - r_observed)` (common rows), rescaled by
`n / sum`, and the returned vector sums to the row count; with
`r_observed = 0` the uniform all-ones vector is returned instead. -/
theorem claim3_stratified_formula
    (self : ImportanceSampling) (df : List LRow) (t : ℚ) :
    (0 < df.countP (·.label) → df.countP (·.label) < df.length →
      ∃ pre : List ℚ,
        pre = df.map (fun r =>
          if r.label then t / ((df.countP (·.label) : ℚ) / (df.length : ℚ))
          else (1 - t) / (1 - (df.countP (·.label) : ℚ) / (df.length : ℚ))) ∧
        compute_importance_weights self df "stratified" (some t) =
          .ok (pre.map (fun w => w / pre.sum * (df.length : ℚ))) ∧
        (pre.map (fun w => w / pre.sum * (df.length : ℚ))).sum =
          (df.length : ℚ)) ∧
    (df.countP (·.label) = 0 →
      compute_importance_weights self df "stratified" (some t) =
        .ok (List.replicate df.length 1)) := by
  constructor
  · intro h1 h2
    have hlen : 0 < df.length := lt_of_le_of_lt (Nat.zero_le _) h2
    have hnQ : (0 : ℚ) < df.length := by exact_mod_cast hlen
    have hrQ : (0 : ℚ) < (df.countP (·.label) : ℚ) := by exact_mod_cast h1
    have hcur_ne : ((df.countP (·.label) : ℚ) / (df.length : ℚ)) ≠ 0 :=
      ne_of_gt (div_pos hrQ hnQ)
    refine ⟨_, rfl, ?_, ?_⟩
    · simp only [compute_importance_weights, stratifiedW, String.reduceEq,
        reduceIte, Option.getD_some, if_pos hlen, if_neg hcur_ne]
    · set c : ℕ := df.countP (fun r => decide ¬(r.label = true)) with hc
      have hsplit : (df.countP (·.label) : ℚ) + (c : ℚ) = (df.length : ℚ) := by
        rw [hc]
        exact_mod_cast (List.length_eq_countP_add_countP
          (fun r : LRow => r.label) df).symm
      have hcQ : (0 : ℚ) < (c : ℚ) := by
        have : (df.countP (·.label) : ℚ) < (df.length : ℚ) := by exact_mod_cast h2
        linarith
      have hS : (df.map (fun r =>
          if r.label then t / ((df.countP (·.label) : ℚ) / (df.length : ℚ))
          else (1 - t) / (1 - (df.countP (·.label) : ℚ) / (df.length : ℚ)))).sum =
          (df.length : ℚ) := by
        rw [sum_map_ite_label, ← hc]
        have e1 : t / ((df.countP (·.label) : ℚ) / (df.length : ℚ)) =
            t * (df.length : ℚ) / (df.countP (·.label) : ℚ) := by
          field_simp
        have e2 : (1 : ℚ) - (df.countP (·.label) : ℚ) / (df.length : ℚ) =
            (c : ℚ) / (df.length : ℚ) := by
          field_simp
          linarith
        rw [e1, e2]
        field_simp
        ring
      rw [sum_map_div_mul, hS, div_self (ne_of_gt hnQ), one_mul]
  · intro h0
    have hcur : (if 0 < df.length
        then ((df.countP (·.label) : ℕ) : ℚ) / (df.length : ℚ) else 0) = 0 := by
      split_ifs with h
      · simp [h0]
      · rfl
    simp only [compute_importance_weights, stratifiedW, String.reduceEq,
      reduceIte, Option.getD_some, hcur, if_pos rfl]

/-- Witness for C3 at concrete inputs: a two-row table with one rare
row (target rate `1/4`), and a one-row table with no rare rows. -/
theorem claim3_stratified_formula_witness :
    (compute_importance_weights ⟨1/100, none⟩ [⟨[], true⟩, ⟨[], false⟩]
        "stratified" (some (1/4)) = .ok [1/2, 3/2] ∧
      ((1 : ℚ)/2 + 3/2 = (2 : ℚ))) ∧
    compute_importance_weights ⟨1/100, none⟩ [⟨[], false⟩]
        "stratified" (some (1/4)) = .ok [1] := by
  refine ⟨⟨?_, by norm_num⟩, ?_⟩
  · obtain ⟨pre, hpre, hok, hsum⟩ :=
      (claim3_stratified_formula ⟨1/100, none⟩ [⟨[], true⟩, ⟨[], false⟩]
        (1/4)).1 (by decide) (by decide)
    rw [hok]
    congr 1
    rw [hpre]
    norm_num
  · exact (claim3_stratified_formula ⟨1/100, none⟩ [⟨[], false⟩]
      (1/4)).2 (by decide)

/-- With a fitted classifier, `importanceW` returns a weight vector
(it has no failure path). -/
lemma importanceW_isOk (self : ImportanceSampling) (df : List LRow)
    (f : List ℚ → ℚ) (h : self.reweighting_model = some f) :
    ∃ w, importanceW self df = .ok w := by
  simp only [importanceW, h]
  exact ⟨_, rfl⟩

/-- **C8**.  The `'importance'` method fails with the model-not-fitted
error (`raise ValueError("Must fit reweighting model first")`, the
spec's `ModelNotFitted`) exactly when the auxiliary classifier was
never trained; once a classifier is fitted the call returns a weight
vector and does not fail. -/
theorem claim8_importance_requires_fitted_model
    (self : ImportanceSampling) (df : List LRow) (tr : Option ℚ) :
    (self.reweighting_model = none →
      compute_importance_weights self df "importance" tr =
        .error .modelNotFitted) ∧
    (∀ f, self.reweighting_model = some f →
      ∃ w, compute_importance_weights self df "importance" tr = .ok w) := by
  constructor
  · intro h
    simp [compute_importance_weights, importanceW, h]
  · intro f h
    obtain ⟨w, hw⟩ := importanceW_isOk self df f h
    exact ⟨w, by simp [compute_importance_weights, hw]⟩

/-- Witness for C8: an unfitted sampler fails on a concrete one-row
table, a fitted one succeeds on it. -/
theorem claim8_importance_requires_fitted_model_witness :
    compute_importance_weights ⟨1/100, none⟩ [⟨[1], true⟩]
        "importance" none = .error .modelNotFitted ∧
    ∃ w, compute_importance_weights ⟨1/100, some (fun _ => 1/2)⟩
        [⟨[1], true⟩] "importance" none = .ok w :=
  ⟨(claim8_importance_requires_fitted_model ⟨1/100, none⟩
      [⟨[1], true⟩] none).1 rfl,
    (claim8_importance_requires_fitted_model ⟨1/100, some (fun _ => 1/2)⟩
      [⟨[1], true⟩] none).2 (fun _ => 1/2) rfl⟩

/-- **C9**.  The `'adaptive'` weights are the elementwise `0.5/0.5`
blend of the `'stratified'` weights at target rate `0.1` and the
`'importance'` weights whenever a classifier is fitted, and are the
`'stratified'` weights (target rate `0.1`) alone when none exists. -/
theorem claim9_adaptive_blend
    (self : ImportanceSampling) (df : List LRow) (tr : Option ℚ) :
    (∀ f, self.reweighting_model = some f →
      ∃ ws wi,
        compute_importance_weights self df "stratified" (some (1/10)) =
          .ok ws ∧
        compute_importance_weights self df "importance" none = .ok wi ∧
        compute_importance_weights self df "adaptive" tr =
          .ok (List.zipWith (fun a b => 1/2 * a + 1/2 * b) ws wi)) ∧
    (self.reweighting_model = none →
      compute_importance_weights self df "adaptive" tr =
        compute_importance_weights self df "stratified" (some (1/10))) := by
  constructor
  · intro f h
    obtain ⟨wi, hwi⟩ := importanceW_isOk self df f h
    exact ⟨stratifiedW df (some (1/10)), wi,
      by simp [compute_importance_weights],
      by simp [compute_importance_weights, hwi],
      by simp [compute_importance_weights, h, hwi, Except.map]⟩
  · intro h
    simp [compute_importance_weights, h]

/-- Witness for C9: the blend on a concrete two-row table with a
fitted classifier, and the fallback without one. -/
theorem claim9_adaptive_blend_witness :
    (∃ ws wi,
      compute_importance_weights ⟨1/100, some (fun fs => fs.headD 0)⟩
          [⟨[1], true⟩, ⟨[3], false⟩] "stratified" (some (1/10)) = .ok ws ∧
      compute_importance_weights ⟨1/100, some (fun fs => fs.headD 0)⟩
          [⟨[1], true⟩, ⟨[3], false⟩] "importance" none = .ok wi ∧
      compute_importance_weights ⟨1/100, some (fun fs => fs.headD 0)⟩
          [⟨[1], true⟩, ⟨[3], false⟩] "adaptive" none =
        .ok (List.zipWith (fun a b => 1/2 * a + 1/2 * b) ws wi)) ∧
    compute_importance_weights ⟨1/100, none⟩ [⟨[1], true⟩, ⟨[3], false⟩]
        "adaptive" none =
      compute_importance_weights ⟨1/100, none⟩ [⟨[1], true⟩, ⟨[3], false⟩]
        "stratified" (some (1/10)) :=
  ⟨(claim9_adaptive_blend ⟨1/100, some (fun fs => fs.headD 0)⟩
      [⟨[1], true⟩, ⟨[3], false⟩] none).1 (fun fs => fs.headD 0) rfl,
    (claim9_adaptive_blend ⟨1/100, none⟩
      [⟨[1], true⟩, ⟨[3], false⟩] none).2 rfl⟩

/-! ### The MTTD proxy -/

/-- If position `i` is a true positive and every earlier position is
not, then `firstTPIdx` finds `i`. -/
lemma firstTPIdx_eq_some (yt yp : List ℕ) (i : ℕ)
    (h1 : yt.getD i 0 = 1) (h2 : yp.getD i 0 = 1)
    (hmin : ∀ j, j < i → ¬(yt.getD j 0 = 1 ∧ yp.getD j 0 = 1)) :
    firstTPIdx yt yp = some i := by
  induction yt generalizing yp i with
  | nil => simp [List.getD] at h1
  | cons a as ih =>
    cases yp with
    | nil => simp [List.getD] at h2
    | cons b bs =>
      cases i with
      | zero =>
        simp only [List.getD_cons_zero] at h1 h2
        simp [firstTPIdx, h1, h2]
      | succ k =>
        have hhead : ¬(a = 1 ∧ b = 1) := by
          have := hmin 0 (Nat.succ_pos k)
          simpa using this
        simp only [List.getD_cons_succ] at h1 h2
        have hrec := ih bs k h1 h2 (fun j hj => by
          have := hmin (j + 1) (Nat.succ_lt_succ hj)
          simpa using this)
        simp [firstTPIdx, hhead, hrec]

/-- If no position is a true positive, `firstTPIdx` finds nothing. -/
lemma firstTPIdx_eq_none (yt yp : List ℕ)
    (h : ∀ j, ¬(yt.getD j 0 = 1 ∧ yp.getD j 0 = 1)) :
    firstTPIdx yt yp = none := by
  induction yt generalizing yp with
  | nil => cases yp <;> simp [firstTPIdx]
  | cons a as ih =>
    cases yp with
    | nil => simp [firstTPIdx]
    | cons b bs =>
      have hhead : ¬(a = 1 ∧ b = 1) := by
        have := h 0
        simpa using this
      have hrec := ih bs (fun j => by
        have := h (j + 1)
        simpa using this)
      simp [firstTPIdx, hhead, hrec]

/-- **C6**.  For equal-length binary label and prediction arrays,
`_estimate_mttd` returns `24` times the index of the first position
where both arrays hold `1`, and returns positive infinity — never
zero — when no such position exists. -/
theorem claim6_estimate_mttd (y_true y_pred : List ℕ)
    (_hlen : y_true.length = y_pred.length) :
    (∀ i, y_true.getD i 0 = 1 → y_pred.getD i 0 = 1 →
      (∀ j, j < i → ¬(y_true.getD j 0 = 1 ∧ y_pred.getD j 0 = 1)) →
      estimate_mttd y_true y_pred = ((24 * i : ℚ) : WithTop ℚ)) ∧
    ((∀ j, ¬(y_true.getD j 0 = 1 ∧ y_pred.getD j 0 = 1)) →
      estimate_mttd y_true y_pred = ⊤ ∧
      estimate_mttd y_true y_pred ≠ (0 : WithTop ℚ)) := by
  constructor
  · intro i h1 h2 hmin
    rw [estimate_mttd, firstTPIdx_eq_some y_true y_pred i h1 h2 hmin]
  · intro h
    rw [estimate_mttd, firstTPIdx_eq_none y_true y_pred h]
    exact ⟨rfl, by simp⟩

/-- Witness for C6: a series whose first true positive is at index 2
(`48` hours), and one with no true positive (`⊤`, not `0`). -/
theorem claim6_estimate_mttd_witness :
    estimate_mttd [0, 0, 1] [1, 1, 1] = ((48 : ℚ) : WithTop ℚ) ∧
    estimate_mttd [1, 0] [0, 1] = ⊤ ∧
    estimate_mttd [1, 0] [0, 1] ≠ (0 : WithTop ℚ) := by
  have hmin : ∀ j, j < 2 → ¬([0, 0, 1].getD j 0 = 1 ∧ [1, 1, 1].getD j 0 = 1) := by
    intro j hj
    match j, hj with
    | 0, _ => simp
    | 1, _ => simp
  have hno : ∀ j, ¬([1, 0].getD j 0 = 1 ∧ [0, 1].getD j 0 = 1) := by
    intro j
    match j with
    | 0 => simp
    | 1 => simp
    | (n + 2) => simp [List.getD]
  have h1 := (claim6_estimate_mttd [0, 0, 1] [1, 1, 1] rfl).1 2
    (by simp) (by simp) hmin
  have h2 := (claim6_estimate_mttd [1, 0] [0, 1] rfl).2 hno
  refine ⟨?_, h2.1, h2.2⟩
  rw [h1]
  norm_num

/-! ### Change-point detection decision -/

/-- **C4**.  `detect_changepoint` computes `changepoint_probability`
as the fraction of posterior draws of `tau` beyond the first 20% of
the series (`tau > 0.2 * n` with `n` the series length), and reports
`changepoint_detected` exactly when that fraction exceeds the
threshold; the default threshold is `0.5`. -/
theorem claim4_detect_changepoint (tau_samples time : List ℚ)
    (threshold_probability : ℚ) :
    (ChangepointModel.detect_changepoint tau_samples time
        threshold_probability).changepoint_probability =
      ((tau_samples.filter
          (fun τ => decide ((time.length : ℚ) / 5 < τ))).length : ℚ) /
        (tau_samples.length : ℚ) ∧
    ((ChangepointModel.detect_changepoint tau_samples time
        threshold_probability).changepoint_detected = true ↔
      threshold_probability <
        (ChangepointModel.detect_changepoint tau_samples time
          threshold_probability).changepoint_probability) ∧
    ChangepointModel.defaultThresholdProbability = 1/2 := by
  have hpred : (fun τ : ℚ => decide ((time.length : ℚ) * (1/5) < τ)) =
      (fun τ : ℚ => decide ((time.length : ℚ) / 5 < τ)) := by
    funext τ
    have he : (time.length : ℚ) * (1/5) = (time.length : ℚ) / 5 := by ring
    rw [he]
  refine ⟨?_, ?_, rfl⟩
  · simp only [ChangepointModel.detect_changepoint, hpred,
      List.countP_eq_length_filter]
  · simp only [ChangepointModel.detect_changepoint, decide_eq_true_eq]

/-! ### Hazard prediction clamps non-positive times -/

/-- `getD` with default `0` over an all-zero list is `0`. -/
lemma getD_zero_of_all_zero (l : List ℚ) (h : ∀ x ∈ l, x = 0) (i : ℕ) :
    l.getD i 0 = 0 := by
  rcases lt_or_le i l.length with hi | hi
  · rw [List.getD_eq_getElem l 0 hi]
    exact h _ (l.getElem_mem hi)
  · exact List.getD_eq_default l 0 hi

/-- A quantile of an all-zero sample list is `0`. -/
lemma npQuantile_all_zero (xs : List ℚ) (h : ∀ x ∈ xs, x = 0) (q : ℚ) :
    npQuantile xs q = 0 := by
  unfold npQuantile
  by_cases hx : xs = []
  · simp [hx]
  · have hs : ∀ x ∈ xs.insertionSort (· ≤ ·), x = 0 := fun x hxm =>
      h x ((xs.perm_insertionSort (· ≤ ·)).mem_iff.mp hxm)
    simp only [if_neg hx, getD_zero_of_all_zero _ hs]
    ring

/-- The mean of an all-zero sample list is `0`. -/
lemma npMean_all_zero (xs : List ℚ) (h : ∀ x ∈ xs, x = 0) :
    npMean xs = 0 := by
  unfold npMean
  rw [List.sum_eq_zero h, zero_div]

/-- **C7**.  At every requested time point `t ≤ 0`,
`predict_hazard_rate` reports a hazard of exactly zero — mean and both
credible-interval bounds — and every per-draw hazard sample there is
zero, for any posterior draws and any actual power function. -/
theorem claim7_hazard_zero_at_nonpositive_time
    (alphas lams : List ℚ) (pw : ℚ → ℚ → ℚ) (tps : List ℚ)
    (qlo qhi : ℚ) (i : ℕ) (hi : i < tps.length)
    (ht : tps.getD i 1 ≤ 0) :
    (SurvivalModel.predict_hazard_rate alphas lams pw tps qlo
        qhi).mean_hazard_rate.getD i 1 = 0 ∧
    (SurvivalModel.predict_hazard_rate alphas lams pw tps qlo
        qhi).hazard_rate_lower_ci.getD i 1 = 0 ∧
    (SurvivalModel.predict_hazard_rate alphas lams pw tps qlo
        qhi).hazard_rate_upper_ci.getD i 1 = 0 ∧
    ∀ s ∈ SurvivalModel.hazardSamplesAt alphas lams pw (tps.getD i 1),
      s = 0 := by
  have htD : tps.getD i 1 = tps.get ⟨i, hi⟩ := by
    rw [List.getD_eq_getElem tps 1 hi]
    rfl
  have hz : ∀ s ∈ SurvivalModel.hazardSamplesAt alphas lams pw
      (tps.getD i 1), s = 0 := by
    intro s hs
    rcases List.mem_map.mp hs with ⟨p, _, rfl⟩
    rw [if_neg (not_lt.mpr ht)]
  have hmap : ∀ g : ℚ → ℚ, (tps.map g).getD i 1 = g (tps.getD i 1) := by
    intro g
    have hi' : i < (tps.map g).length := by simpa using hi
    rw [List.getD_eq_getElem _ 1 hi', List.getElem_map, htD]
    rfl
  refine ⟨?_, ?_, ?_, hz⟩
  · rw [show (SurvivalModel.predict_hazard_rate alphas lams pw tps qlo
        qhi).mean_hazard_rate = tps.map (fun t =>
          npMean (SurvivalModel.hazardSamplesAt alphas lams pw t)) from rfl,
      hmap]
    exact npMean_all_zero _ hz
  · rw [show (SurvivalModel.predict_hazard_rate alphas lams pw tps qlo
        qhi).hazard_rate_lower_ci = tps.map (fun t =>
          npQuantile (SurvivalModel.hazardSamplesAt alphas lams pw t) qlo)
        from rfl, hmap]
    exact npQuantile_all_zero _ hz qlo
  · rw [show (SurvivalModel.predict_hazard_rate alphas lams pw tps qlo
        qhi).hazard_rate_upper_ci = tps.map (fun t =>
          npQuantile (SurvivalModel.hazardSamplesAt alphas lams pw t) qhi)
        from rfl, hmap]
    exact npQuantile_all_zero _ hz qhi

/-- Witness for C7 at a concrete fitted model: two posterior draws,
time points `[-1, 24]`, the clamp applies at the first point. -/
theorem claim7_hazard_zero_at_nonpositive_time_witness :
    (SurvivalModel.predict_hazard_rate [3/2, 2] [100, 50]
        (fun _ _ => 7) [-1, 24] (1/40) (39/40)).mean_hazard_rate.getD 0 1
      = 0 ∧
    (SurvivalModel.predict_hazard_rate [3/2, 2] [100, 50]
        (fun _ _ => 7) [-1, 24] (1/40)
        (39/40)).hazard_rate_lower_ci.getD 0 1 = 0 ∧
    (SurvivalModel.predict_hazard_rate [3/2, 2] [100, 50]
        (fun _ _ => 7) [-1, 24] (1/40)
        (39/40)).hazard_rate_upper_ci.getD 0 1 = 0 ∧
    ∀ s ∈ SurvivalModel.hazardSamplesAt [3/2, 2] [100, 50]
        (fun _ _ => 7) (([-1, 24] : List ℚ).getD 0 1), s = 0 :=
  claim7_hazard_zero_at_nonpositive_time [3/2, 2] [100, 50]
    (fun _ _ => 7) [-1, 24] (1/40) (39/40) 0 (by norm_num)
    (by norm_num [List.getD])

/-! ### Change-point data preparation -/

/-- Membership in `sortedDistinct` is membership in the original
column. -/
lemma mem_sortedDistinct {α : Type} [DecidableEq α] [LinearOrder α]
    (l : List α) (a : α) :
    a ∈ ChangepointModel.sortedDistinct l ↔ a ∈ l := by
  unfold ChangepointModel.sortedDistinct
  rw [(l.dedup.perm_insertionSort (· ≤ ·)).mem_iff, List.mem_dedup]

/-- **C5**.  The claimed behaviour — per-vehicle series of at least
10 points when grouped, a single aggregate series otherwise — is what
the code visibly intends (and what the repo's own
`test_changepoint_model_prepare_data`, which calls with
`time_col='date_key'`, expects), but the code cannot deliver it:
`groupby(...).agg` drops the `time_numeric` column, so at a
`time_col` other than `'time_numeric'` grouped preparation raises
`KeyError('time_numeric')` as soon as any vehicle reaches the
10-point minimum (here vehicle 1 with 10 points, vehicle 2 with 3),
aggregate preparation raises it unconditionally (here a 30-point
series shaped like the repo's test input), and the only input a
grouped call survives is one where *every* vehicle is below the
minimum, returning empty series lists — in no case is an
`InsufficientData` error raised or a prepared series returned. -/
theorem claim5_prepare_data_keyerror :
    ChangepointModel.prepare_data_grouped
      (((List.range 10).map
          (fun i => (⟨1, (i : ℚ), 1, 1⟩ : ChangepointModel.CPRow)) ++
        [⟨2, 0, 1, 1⟩, ⟨2, 1, 1, 1⟩, ⟨2, 2, 1, 1⟩] :
          List ChangepointModel.CPRow)) "date_key" =
      .error (.keyError "time_numeric") ∧
    ChangepointModel.prepare_data_aggregate
      ((List.range 30).map
        (fun i => (⟨0, (i : ℚ), 2, 100⟩ : ChangepointModel.CPRow)))
      "date_key" = .error (.keyError "time_numeric") ∧
    ChangepointModel.prepare_data_grouped
      ([⟨2, 0, 1, 1⟩, ⟨2, 1, 1, 1⟩, ⟨2, 2, 1, 1⟩] :
        List ChangepointModel.CPRow) "date_key" =
      .ok ⟨[], []⟩ := by
  refine ⟨by decide, by decide, by decide⟩

/-! ### Survival data preparation -/

/-- `uniqueFirst` keeps exactly the values of the original column. -/
lemma mem_uniqueFirst (l : List ℕ) (a : ℕ) :
    a ∈ SurvivalModel.uniqueFirst l ↔ a ∈ l := by
  induction l using SurvivalModel.uniqueFirst.induct with
  | case1 => simp [SurvivalModel.uniqueFirst]
  | case2 b l ih =>
    simp only [SurvivalModel.uniqueFirst, List.mem_cons, ih,
      List.mem_filter, decide_eq_true_eq]
    by_cases hab : a = b
    · simp [hab]
    · simp [hab]

/-- `uniqueFirst` contains no duplicates. -/
lemma nodup_uniqueFirst (l : List ℕ) :
    (SurvivalModel.uniqueFirst l).Nodup := by
  induction l using SurvivalModel.uniqueFirst.induct with
  | case1 => simp [SurvivalModel.uniqueFirst]
  | case2 b l ih =>
    rw [SurvivalModel.uniqueFirst]
    refine List.Nodup.cons ?_ ih
    intro hmem
    have := (mem_uniqueFirst _ b).mp hmem
    simp at this

/-- The cleaned row count is the number of rows with all three fields
present. -/
lemma cleanRows_length (df : List SurvivalModel.SRow) :
    (SurvivalModel.cleanRows df).length =
      df.countP (fun r => r.time.isSome && r.event.isSome &&
        r.vehicle.isSome) := by
  induction df with
  | nil => rfl
  | cons r l ih =>
    rcases r with ⟨t, e, v⟩
    cases t <;> cases e <;> cases v <;>
      simp [SurvivalModel.cleanRows, List.filterMap_cons,
        List.countP_cons, ih] <;>
      rw [← SurvivalModel.cleanRows, ih]

/-- **C10**.  The dictionary returned by `prepare_data` has `time`,
`event` and `vehicle_idx` arrays of one common length — the number of
rows with no missing time, event or vehicle value — `n_vehicles` is
the number of distinct vehicle ids among those rows, and every entry
of `vehicle_idx` lies in `[0, n_vehicles)`. -/
theorem claim10_prepared_data_invariants (df : List SurvivalModel.SRow) :
    (SurvivalModel.prepare_data df).time.length =
      df.countP (fun r => r.time.isSome && r.event.isSome &&
        r.vehicle.isSome) ∧
    (SurvivalModel.prepare_data df).event.length =
      df.countP (fun r => r.time.isSome && r.event.isSome &&
        r.vehicle.isSome) ∧
    (SurvivalModel.prepare_data df).vehicle_idx.length =
      df.countP (fun r => r.time.isSome && r.event.isSome &&
        r.vehicle.isSome) ∧
    (SurvivalModel.prepare_data df).n_vehicles =
      ((SurvivalModel.cleanRows df).map (fun r => r.2.2)).toFinset.card ∧
    ∀ i ∈ (SurvivalModel.prepare_data df).vehicle_idx,
      i < (SurvivalModel.prepare_data df).n_vehicles := by
  refine ⟨by simp [SurvivalModel.prepare_data, cleanRows_length],
    by simp [SurvivalModel.prepare_data, cleanRows_length],
    by simp [SurvivalModel.prepare_data, cleanRows_length], ?_, ?_⟩
  · have hnd := nodup_uniqueFirst
      ((SurvivalModel.cleanRows df).map (fun r => r.2.2))
    have hset : (SurvivalModel.uniqueFirst
        ((SurvivalModel.cleanRows df).map (fun r => r.2.2))).toFinset =
        ((SurvivalModel.cleanRows df).map (fun r => r.2.2)).toFinset := by
      ext x
      simp [mem_uniqueFirst]
    simp only [SurvivalModel.prepare_data]
    rw [← List.toFinset_card_of_nodup hnd, hset]
  · intro i hi
    simp only [SurvivalModel.prepare_data, List.mem_map] at hi ⊢
    rcases hi with ⟨r, hr, rfl⟩
    rw [List.indexOf_lt_length, mem_uniqueFirst]
    exact List.mem_map.mpr ⟨r, hr, rfl⟩

/-- **C1** (amended).  `prepare_data` drops exactly the rows with a
missing time, event label or vehicle id, and assigns the remaining
distinct vehicles dense zero-based indices (the set of assigned
indices is exactly `{0, …, n_vehicles - 1}`).  It performs no
minimum-size validation: it is total and returns a prepared data set
for every input, including inputs with fewer than 2 distinct vehicles
or fewer than 10 observations, and never raises `InsufficientData`
(the source has no such check). -/
theorem claim1_prepare_data_no_minimum_check (df : List SurvivalModel.SRow) :
    (SurvivalModel.prepare_data df).time =
      (SurvivalModel.cleanRows df).map (fun r => r.1) ∧
    (SurvivalModel.prepare_data df).event =
      (SurvivalModel.cleanRows df).map (fun r => r.2.1) ∧
    (SurvivalModel.prepare_data df).vehicle_ids.Nodup ∧
    (∀ v, v ∈ (SurvivalModel.prepare_data df).vehicle_ids ↔
      v ∈ (SurvivalModel.cleanRows df).map (fun r => r.2.2)) ∧
    (SurvivalModel.prepare_data df).vehicle_idx.toFinset =
      Finset.range (SurvivalModel.prepare_data df).n_vehicles := by
  refine ⟨rfl, rfl, nodup_uniqueFirst _, fun v => mem_uniqueFirst _ v, ?_⟩
  ext k
  simp only [SurvivalModel.prepare_data, List.mem_toFinset, List.mem_map,
    Finset.mem_range]
  constructor
  · rintro ⟨r, hr, rfl⟩
    rw [List.indexOf_lt_length, mem_uniqueFirst]
    exact List.mem_map.mpr ⟨r, hr, rfl⟩
  · intro hk
    set vids := SurvivalModel.uniqueFirst
      ((SurvivalModel.cleanRows df).map (fun r => r.2.2)) with hvids
    have hmem : vids.get ⟨k, hk⟩ ∈
        (SurvivalModel.cleanRows df).map (fun r => r.2.2) := by
      rw [← mem_uniqueFirst, ← hvids]
      exact vids.get_mem _ _
    rcases List.mem_map.mp hmem with ⟨r, hr, hrv⟩
    refine ⟨r, hr, ?_⟩
    rw [hrv]
    have := List.indexOf_getElem (nodup_uniqueFirst _) k hk
    simpa [← hvids] using this

/-- **C1** fails as stated: a table with a single complete row — one
distinct vehicle (< 2) and one observation (< 10) — is prepared
without any `InsufficientData` failure, returning the one-row arrays. -/
theorem claim1_counterexample :
    SurvivalModel.prepare_data [⟨some 5, some 1, some 7⟩] =
      ⟨[5], [1], [0], 1, [7]⟩ ∧
    (1 : ℕ) < 2 ∧ (1 : ℕ) < 10 := by
  refine ⟨?_, by norm_num, by norm_num⟩
  simp only [SurvivalModel.prepare_data, SurvivalModel.cleanRows,
    List.filterMap_cons, List.filterMap_nil, SurvivalModel.uniqueFirst,
    List.map_cons, List.map_nil, List.filter_nil]
  rfl

end SafetyTelemetry
